import Mathlib

/-!
Verification of the competitive-intelligence report generator.

The development shallowly embeds the two core components of the
repository — the document layout engine (`generatePDF`) and the pipeline
orchestrator (`handler`) — and proves or refutes the specified
properties about them.

Modelling conventions:
* JavaScript strings are Lean `String`s; `a.includes(b)` is modelled by
  `strIncludes a b` (contiguous-substring containment on the character
  lists), and `Array.prototype.findIndex` (which returns `-1` on no
  match) by `jsFindIndex`, valued in `Int`.
* The external collaborators (axios/cheerio scraping, Redis, OpenAI,
  pdfkit font metrics) are parameters of the model: the scraper and the
  JSON codec are abstract functions, the cache is an abstract
  `String → Option String` snapshot, and the page count produced by the
  geometric content pass is an abstract natural number.  Everything the
  repository's own code decides (classification of lines, anchor
  targets, table-of-contents structure, page padding, footers, progress
  events, caching policy) is modelled concretely.
-/

/-! ## Characters and substring containment (JS `String.prototype.includes`) -/

/-- Boolean test that `needle` is a prefix of `hay` (character lists). -/
def charsPrefixOf : List Char → List Char → Bool
  | [], _ => true
  | _ :: _, [] => false
  | a :: as, b :: bs => a == b && charsPrefixOf as bs

/-- Boolean test that `needle` occurs contiguously inside `hay`. -/
def charsContains : List Char → List Char → Bool
  | [], needle => charsPrefixOf needle []
  | h :: t, needle => charsPrefixOf needle (h :: t) || charsContains t needle

/-- Model of JavaScript `a.includes(b)`: `b` is a substring of `a`. -/
def strIncludes (a b : String) : Bool :=
  charsContains a.data b.data

/-- Model of JavaScript `Array.prototype.findIndex`: index of the first
element satisfying `p`, and `-1` when there is none. -/
def jsFindIndex (p : α → Bool) (l : List α) : Int :=
  match l.findIdx? p with
  | some i => (i : Int)
  | none => -1

/-! ## Data model (the `ScrapedData` interface, source lines 12–35) -/

structure ImageAnalysis where
  labels : List String
  text : String
  logoDetection : List String
  colorInfo : String
deriving DecidableEq

structure ImageData where
  url : String
  localPath : String
  analysis : ImageAnalysis
deriving DecidableEq

structure ScrapedData where
  companyName : String
  productNames : List String
  productDescriptions : List String
  pricing : List String
  contactInfo : String
  socialMediaLinks : List String
  newsHeadlines : List String
  keyFeatures : List String
  images : List ImageData
deriving DecidableEq

/-- The all-empty record `scrapeWebsite` starts from (source lines 43–53). -/
def emptyScrapedData : ScrapedData :=
  { companyName := ""
    productNames := []
    productDescriptions := []
    pricing := []
    contactInfo := ""
    socialMediaLinks := []
    newsHeadlines := []
    keyFeatures := []
    images := [] }

/-! ## Document layout engine (`generatePDF`, source lines 132–196)

A rendered text call is recorded as a `TextOp`: its font size, its
content, an optional outgoing link (the `link` option of pdfkit) and an
optional anchor (the `destination` option). -/

structure TextOp where
  fontSize : Nat
  content : String
  link : Option String := none
  destination : Option String := none
deriving DecidableEq

/-- The title write: `doc.fontSize(24).text('Competitive Intelligence
Report', { align: 'center' })` (line 148). -/
def titleOp : TextOp :=
  { fontSize := 24, content := "Competitive Intelligence Report" }

/-- The condition of line 165: `sections.some(section =>
line.includes(section))` — some requested section identifier occurs as a
substring of the line. -/
def isHeaderLine (sections : List String) (line : String) : Bool :=
  sections.any (fun sec => strIncludes line sec)

/-- The anchor computed on line 168:
`section${sections.findIndex(s => s.includes(line)) + 1}` — note the
containment direction is reversed with respect to line 165, and that a
failed `findIndex` yields `-1`, hence the target `section0`. -/
def headerDestination (sections : List String) (line : String) : String :=
  "section" ++ (jsFindIndex (fun s => strIncludes s line) sections + 1).repr

/-- The per-line body of the `contentLines.forEach` (lines 164–178). -/
def renderLine (sections : List String) (format : String) (line : String) : TextOp :=
  if isHeaderLine sections line then
    { fontSize := 18, content := line, destination := some (headerDestination sections line) }
  else if format == "presentation" then
    { fontSize := 14, content := "• " ++ line }
  else
    { fontSize := 12, content := line }

/-- The table-of-contents block (lines 152–159): a heading followed by
one entry per requested section, each carrying the link
`#section${index + 1}`; nothing at all for the `presentation` format. -/
def tocOps (sections : List String) (format : String) : List TextOp :=
  if format != "presentation" then
    { fontSize := 18, content := "Table of Contents" } ::
      sections.enum.map (fun p =>
        { fontSize := 12, content := p.2, link := some ("#section" ++ Nat.repr (p.1 + 1)) })
  else []

/-- All text operations of the content pass of `generatePDF`
(lines 147–178): title, then the table of contents, then one op per line
of `analysisResult.split('\n')`. -/
def generateOps (analysisResult : String) (sections : List String) (format : String) :
    List TextOp :=
  titleOp :: (tocOps sections format ++
    (analysisResult.splitOn "\n").map (renderLine sections format))

/-- The padding loop of lines 181–184:
`while (doc.bufferedPageRange().count < 15) doc.addPage()`. -/
def padTo15 (n : Nat) : Nat :=
  if n < 15 then padTo15 (n + 1) else n
termination_by 15 - n
decreasing_by omega

/-- The footer stamped on page `i` (0-based) out of `pages` on line 191:
`Page ${i + 1} of ${pages}`. -/
def pageFooter (i pages : Nat) : String :=
  "Page " ++ Nat.repr (i + 1) ++ " of " ++ Nat.repr pages

/-- Result of `generatePDF`: the text ops of the content pass, the final
page count, and the footers stamped in the footer pass. -/
structure PDFModel where
  ops : List TextOp
  pages : Nat
  footers : List String
deriving DecidableEq

/-- Model of `generatePDF` (lines 132–196).  `contentPages` is the page
count at the end of the content pass; its value is decided by pdfkit's
font metrics and the `ensureSpace` checks, which live outside this
repository, so it is an abstract parameter here (a fresh `PDFDocument`
starts with one page, so in any real run `1 ≤ contentPages`).  The code
after the content pass is modelled exactly: lines 181–184 pad a
`detailed` document to 15 pages, and lines 188–192 then stamp every page
`i` of the final count `pages` with `Page ${i + 1} of ${pages}`, where
`pages` is read once, after padding. -/
def generatePDFModel (analysisResult : String) (sections : List String) (format : String)
    (contentPages : Nat) : PDFModel :=
  let padded := if format == "detailed" then padTo15 contentPages else contentPages
  { ops := generateOps analysisResult sections format
    pages := padded
    footers := (List.range padded).map (fun i => pageFooter i padded) }

/-! ## Progress messages (`handler`, source lines 206–269) -/

def startingMsg : String := "Starting report generation..."

/-- `Analyzing competitor ${index + 1} of ${competitors.length}...`
(line 230); `i` here is already the 1-based value. -/
def analyzingMsg (i total : Nat) : String :=
  "Analyzing competitor " ++ Nat.repr i ++ " of " ++ Nat.repr total ++ "..."

/-- `Using cached data for ${competitor}...` (line 235). -/
def usingCachedMsg (c : String) : String :=
  "Using cached data for " ++ c ++ "..."

def generatingMsg : String := "Generating AI analysis..."

def creatingMsg : String := "Creating PDF report..."

def completeMsg : String := "Report generation complete!"

/-- Classifier for per-competitor progress events: the message begins
with the word `Analyzing`. -/
def isAnalyzingMsg (s : String) : Bool :=
  charsPrefixOf "Analyzing".data s.data

/-- Classifier for cache-hit progress events: the message begins with
`Using cached data for `. -/
def isUsingCachedMsg (s : String) : Bool :=
  charsPrefixOf "Using cached data for ".data s.data

/-! ## Pipeline orchestrator -/

/-- The three fields destructured from `req.body` on line 209. -/
structure ReportRequest where
  competitors : List String
  reportSections : List String
  reportFormat : String
deriving DecidableEq

/-- JavaScript truthiness of `string | null` (the `if (cachedData)` test
on line 234): `null` and the empty string are falsy. -/
def jsTruthyStr : Option String → Bool
  | none => false
  | some s => s != ""

/-- Outcome of one competitor resolution: the record used, the progress
messages pushed after the cache read resolves, the number of
`scrapeWebsite` invocations, and the cache writes performed. -/
structure ResolveOutcome where
  record : ScrapedData
  cachedMsgs : List String
  scrapeCalls : Nat
  cacheWrites : List (String × String × Nat)
deriving DecidableEq

/-- The per-competitor closure of lines 229–242 (everything after the
synchronously pushed `Analyzing` message).  `cache` is the snapshot of
the cache answered by `getCachedData`, `decode` is `JSON.parse`,
`encode` is `JSON.stringify`, and `scrape` is `scrapeWebsite`.  On a
truthy cache hit the cached string is decoded and returned with no
scrape and no write; otherwise `https://www.${competitor}.com` is
scraped and the encoded result is cached for 86400 seconds. -/
def resolveCompetitor (cache : String → Option String) (decode : String → ScrapedData)
    (encode : ScrapedData → String) (scrape : String → ScrapedData)
    (competitor : String) : ResolveOutcome :=
  let cacheKey := "competitor:" ++ competitor
  match cache cacheKey with
  | some cachedData =>
    if cachedData != "" then
      { record := decode cachedData
        cachedMsgs := [usingCachedMsg competitor]
        scrapeCalls := 0
        cacheWrites := [] }
    else
      let scrapedData := scrape ("https://www." ++ competitor ++ ".com")
      { record := scrapedData
        cachedMsgs := []
        scrapeCalls := 1
        cacheWrites := [(cacheKey, encode scrapedData, 86400)] }
  | none =>
    let scrapedData := scrape ("https://www." ++ competitor ++ ".com")
    { record := scrapedData
      cachedMsgs := []
      scrapeCalls := 1
      cacheWrites := [(cacheKey, encode scrapedData, 86400)] }

/-- The `Analyzing competitor ${index + 1} of ${N}...` messages, pushed
synchronously, in list order, by the `competitors.map` callbacks before
any of them reaches its first `await` (line 230). -/
def analyzingMsgs (competitors : List String) : List String :=
  competitors.enum.map (fun p => analyzingMsg (p.1 + 1) competitors.length)

/-- The cache-hit messages, one per competitor whose cache read is
truthy, listed in competitor order. -/
def usingCachedMsgs (cache : String → Option String) (decode : String → ScrapedData)
    (encode : ScrapedData → String) (scrape : String → ScrapedData)
    (competitors : List String) : List String :=
  (competitors.map
    (fun c => (resolveCompetitor cache decode encode scrape c).cachedMsgs)).flatten

/-- The competitors whose cache key `competitor:<identifier>` holds a
truthy (non-null, non-empty) value. -/
def hitCompetitors (cache : String → Option String) (competitors : List String) :
    List String :=
  competitors.filter (fun c => jsTruthyStr (cache ("competitor:" ++ c)))

/-- Admissible progress traces of the fan-out stage (lines 228–243).
JavaScript's `Promise.all(competitors.map(async ...))` runs every
callback synchronously up to its first `await`, in list order, so the
`Analyzing` messages form a fixed prefix; each continuation then pushes
its `Using cached data` message (if any) when its cache read resolves,
in an order decided by the scheduler, so the suffix is an arbitrary
permutation of the cache-hit messages. -/
def FanoutTrace (cache : String → Option String) (decode : String → ScrapedData)
    (encode : ScrapedData → String) (scrape : String → ScrapedData)
    (competitors : List String) (t : List String) : Prop :=
  ∃ σ : List String, σ.Perm (usingCachedMsgs cache decode encode scrape competitors) ∧
    t = analyzingMsgs competitors ++ σ

/-- Admissible progress traces of a whole `POST` request (lines
225–251): the start message, then a fan-out trace, then the analysis,
document and completion messages in order. -/
def HandlerTrace (cache : String → Option String) (decode : String → ScrapedData)
    (encode : ScrapedData → String) (scrape : String → ScrapedData)
    (body : ReportRequest) (t : List String) : Prop :=
  ∃ f, FanoutTrace cache decode encode scrape body.competitors f ∧
    t = startingMsg :: (f ++ [generatingMsg, creatingMsg, completeMsg])

/-- The canonical trace: the admissible trace in which the cache reads
resolve in competitor order. -/
def handlerMsgs (cache : String → Option String) (decode : String → ScrapedData)
    (encode : ScrapedData → String) (scrape : String → ScrapedData)
    (body : ReportRequest) : List String :=
  startingMsg ::
    ((analyzingMsgs body.competitors ++
        usingCachedMsgs cache decode encode scrape body.competitors) ++
      [generatingMsg, creatingMsg, completeMsg])

/-- What the handler sends on a request: the HTTP status of the first
header write, whether the server-sent-events channel was opened, and the
progress events pushed on it (in canonical resolution order). -/
structure HandlerResponse where
  status : Nat
  sseOpened : Bool
  events : List String
deriving DecidableEq

/-- Model of `handler` (lines 206–269).  A `POST` request — with no
validation of the body whatsoever — immediately writes the 200
`text/event-stream` headers and streams the progress events; any other
method is answered 405 with no events.  (The `catch` branch returning
500 is unreachable here because the external collaborators are modelled
as total functions.) -/
def handlerRun (cache : String → Option String) (decode : String → ScrapedData)
    (encode : ScrapedData → String) (scrape : String → ScrapedData)
    (method : String) (body : ReportRequest) : HandlerResponse :=
  if method == "POST" then
    { status := 200, sseOpened := true
      events := handlerMsgs cache decode encode scrape body }
  else
    { status := 405, sseOpened := false, events := [] }

/-! ## Spec-side definition for claim C1

Claim C1 states the header test of the spec, which is symmetric; the
following definition follows the spec's words so that it can be compared
with `isHeaderLine`, the definition read off the source. -/

/-- The classification claimed by the spec: the line is a substring of
some requested section identifier, or some requested section identifier
is a substring of the line. -/
def specHeaderCheck (sections : List String) (line : String) : Bool :=
  sections.any (fun sec => strIncludes sec line || strIncludes line sec)

/-! ## Helper lemmas -/

theorem charsPrefixOf_refl (l : List Char) : charsPrefixOf l l = true := by
  induction l with
  | nil => rfl
  | cons a as ih => simp [charsPrefixOf, ih]

theorem charsPrefixOf_append (n pre rest : List Char) (h : charsPrefixOf n pre = true) :
    charsPrefixOf n (pre ++ rest) = true := by
  induction n generalizing pre with
  | nil => rfl
  | cons a as ih =>
    cases pre with
    | nil => simp [charsPrefixOf] at h
    | cons b bs =>
      simp only [charsPrefixOf, Bool.and_eq_true] at h
      simp only [List.cons_append, charsPrefixOf, Bool.and_eq_true]
      exact ⟨h.1, ih bs h.2⟩

theorem charsPrefixOf_head_ne (a b : Char) (as bs : List Char) (h : a ≠ b) :
    charsPrefixOf (a :: as) (b :: bs) = false := by
  simp [charsPrefixOf, h]

theorem isAnalyzingMsg_analyzingMsg (i n : Nat) : isAnalyzingMsg (analyzingMsg i n) = true := by
  unfold isAnalyzingMsg analyzingMsg
  simp only [String.data_append, List.append_assoc]
  exact charsPrefixOf_append _ _ _ (by decide)

theorem usingCachedMsg_data (c : String) :
    (usingCachedMsg c).data = 'U' :: ("sing cached data for ".data ++ (c.data ++ "...".data)) := by
  unfold usingCachedMsg
  simp only [String.data_append]
  rfl

theorem isAnalyzingMsg_usingCachedMsg (c : String) :
    isAnalyzingMsg (usingCachedMsg c) = false := by
  unfold isAnalyzingMsg
  rw [usingCachedMsg_data]
  exact charsPrefixOf_head_ne _ _ _ _ (by decide)

theorem isUsingCachedMsg_usingCachedMsg (c : String) :
    isUsingCachedMsg (usingCachedMsg c) = true := by
  unfold isUsingCachedMsg usingCachedMsg
  simp only [String.data_append, List.append_assoc]
  exact charsPrefixOf_append _ _ _ (charsPrefixOf_refl _)

theorem isUsingCachedMsg_analyzingMsg (i n : Nat) :
    isUsingCachedMsg (analyzingMsg i n) = false := by
  unfold isUsingCachedMsg analyzingMsg
  have hdata : (("Analyzing competitor " ++ Nat.repr i ++ " of " ++ Nat.repr n ++ "...")).data =
      'A' :: ("nalyzing competitor ".data ++
        ((Nat.repr i).data ++ (" of ".data ++ ((Nat.repr n).data ++ "...".data)))) := by
    simp only [String.data_append, List.append_assoc]
    rfl
  rw [hdata]
  exact charsPrefixOf_head_ne _ _ _ _ (by decide)

theorem isAnalyzingMsg_constants :
    isAnalyzingMsg startingMsg = false ∧ isAnalyzingMsg generatingMsg = false ∧
    isAnalyzingMsg creatingMsg = false ∧ isAnalyzingMsg completeMsg = false := by
  decide

theorem isUsingCachedMsg_constants :
    isUsingCachedMsg startingMsg = false ∧ isUsingCachedMsg generatingMsg = false ∧
    isUsingCachedMsg creatingMsg = false ∧ isUsingCachedMsg completeMsg = false := by
  decide

theorem padTo15_eq (n : Nat) : padTo15 n = max n 15 := by
  unfold padTo15
  split
  · rw [padTo15_eq (n + 1)]
    omega
  · omega
termination_by 15 - n
decreasing_by omega

theorem resolveCompetitor_cachedMsgs (cache : String → Option String)
    (decode : String → ScrapedData) (encode : ScrapedData → String)
    (scrape : String → ScrapedData) (c : String) :
    (resolveCompetitor cache decode encode scrape c).cachedMsgs =
      if jsTruthyStr (cache ("competitor:" ++ c)) then [usingCachedMsg c] else [] := by
  cases h : cache ("competitor:" ++ c) with
  | none => simp [resolveCompetitor, jsTruthyStr, h]
  | some s =>
    by_cases hs : s = "" <;> simp [resolveCompetitor, jsTruthyStr, h, hs]

theorem usingCachedMsgs_cons (cache : String → Option String) (decode : String → ScrapedData)
    (encode : ScrapedData → String) (scrape : String → ScrapedData) (c : String)
    (cs : List String) :
    usingCachedMsgs cache decode encode scrape (c :: cs) =
      (resolveCompetitor cache decode encode scrape c).cachedMsgs ++
        usingCachedMsgs cache decode encode scrape cs := by
  simp [usingCachedMsgs]

theorem usingCachedMsgs_eq_map (cache : String → Option String) (decode : String → ScrapedData)
    (encode : ScrapedData → String) (scrape : String → ScrapedData) (competitors : List String) :
    usingCachedMsgs cache decode encode scrape competitors =
      (hitCompetitors cache competitors).map usingCachedMsg := by
  induction competitors with
  | nil => rfl
  | cons c cs ih =>
    rw [usingCachedMsgs_cons, resolveCompetitor_cachedMsgs, ih]
    unfold hitCompetitors
    rw [List.filter_cons]
    by_cases h : jsTruthyStr (cache ("competitor:" ++ c))
    · simp [h, hitCompetitors]
    · simp [h, hitCompetitors]

theorem usingCachedMsgs_length (cache : String → Option String) (decode : String → ScrapedData)
    (encode : ScrapedData → String) (scrape : String → ScrapedData) (competitors : List String) :
    (usingCachedMsgs cache decode encode scrape competitors).length =
      (hitCompetitors cache competitors).length := by
  rw [usingCachedMsgs_eq_map, List.length_map]

theorem mem_usingCachedMsgs (cache : String → Option String) (decode : String → ScrapedData)
    (encode : ScrapedData → String) (scrape : String → ScrapedData) (competitors : List String)
    (x : String) (hx : x ∈ usingCachedMsgs cache decode encode scrape competitors) :
    ∃ c, x = usingCachedMsg c := by
  rw [usingCachedMsgs_eq_map] at hx
  rcases List.mem_map.mp hx with ⟨c, _, rfl⟩
  exact ⟨c, rfl⟩

theorem analyzingMsgs_length (competitors : List String) :
    (analyzingMsgs competitors).length = competitors.length := by
  simp [analyzingMsgs, List.enum_eq_enumFrom]

theorem analyzingMsgs_eq_range_map (competitors : List String) :
    analyzingMsgs competitors =
      (List.range competitors.length).map
        (fun i => analyzingMsg (i + 1) competitors.length) := by
  unfold analyzingMsgs
  have h1 : (fun p : Nat × String => analyzingMsg (p.1 + 1) competitors.length) =
      (fun i : Nat => analyzingMsg (i + 1) competitors.length) ∘ Prod.fst := rfl
  rw [h1, ← List.map_map, List.enum_eq_enumFrom, List.enumFrom_map_fst, ← List.range_eq_range']

theorem mem_analyzingMsgs (competitors : List String) (x : String)
    (hx : x ∈ analyzingMsgs competitors) :
    ∃ i, x = analyzingMsg (i + 1) competitors.length := by
  rw [analyzingMsgs_eq_range_map] at hx
  rcases List.mem_map.mp hx with ⟨i, _, rfl⟩
  exact ⟨i, rfl⟩

theorem filter_analyzing_of_trace (cache : String → Option String)
    (decode : String → ScrapedData) (encode : ScrapedData → String)
    (scrape : String → ScrapedData) (body : ReportRequest) (t : List String)
    (h : HandlerTrace cache decode encode scrape body t) :
    t.filter isAnalyzingMsg = analyzingMsgs body.competitors := by
  rcases h with ⟨f, ⟨σ, hperm, rfl⟩, rfl⟩
  rw [List.filter_cons, List.filter_append, List.filter_append]
  have hstart : isAnalyzingMsg startingMsg = false := isAnalyzingMsg_constants.1
  have htail : [generatingMsg, creatingMsg, completeMsg].filter isAnalyzingMsg = [] := by
    decide
  have hana : (analyzingMsgs body.competitors).filter isAnalyzingMsg =
      analyzingMsgs body.competitors := by
    rw [List.filter_eq_self]
    intro a ha
    rcases mem_analyzingMsgs _ _ ha with ⟨i, rfl⟩
    exact isAnalyzingMsg_analyzingMsg _ _
  have hσ : σ.filter isAnalyzingMsg = [] := by
    rw [List.filter_eq_nil_iff]
    intro a ha
    rcases mem_usingCachedMsgs cache decode encode scrape body.competitors a
        (hperm.mem_iff.mp ha) with ⟨c, rfl⟩
    simp [isAnalyzingMsg_usingCachedMsg]
  rw [hstart, hana, hσ, htail]
  simp

theorem handlerTrace_length (cache : String → Option String) (decode : String → ScrapedData)
    (encode : ScrapedData → String) (scrape : String → ScrapedData) (body : ReportRequest)
    (t : List String) (h : HandlerTrace cache decode encode scrape body t) :
    t.length = body.competitors.length + 4 + (hitCompetitors cache body.competitors).length := by
  rcases h with ⟨f, ⟨σ, hperm, rfl⟩, rfl⟩
  have hσ : σ.length = (hitCompetitors cache body.competitors).length := by
    rw [hperm.length_eq, usingCachedMsgs_length]
  simp [List.length_append, analyzingMsgs_length, hσ]
  omega

theorem toDigitsCore_length_gt (b : Nat) :
    ∀ (f n : Nat) (ds : List Char), f ≠ 0 →
      ds.length < (Nat.toDigitsCore b f n ds).length := by
  intro f
  induction f with
  | zero => intro n ds h; exact absurd rfl h
  | succ f ih =>
    intro n ds _
    simp only [Nat.toDigitsCore]
    split
    · simp
    · cases hf : f with
      | zero => simp [Nat.toDigitsCore]
      | succ g =>
        have h2 := ih (n / b) (Nat.digitChar (n % b) :: ds) (by simp [hf])
        rw [hf] at h2
        simp only [List.length_cons] at h2
        omega

theorem nat_repr_ne_zero {n : Nat} (h : n ≠ 0) : Nat.repr n ≠ "0" := by
  rcases Nat.lt_or_ge n 10 with h10 | h10
  · have h1 : 1 ≤ n := Nat.one_le_iff_ne_zero.mpr h
    interval_cases n <;> decide
  · intro heq
    have hdig : Nat.toDigits 10 n = ['0'] := congrArg String.data heq
    have hlen : (Nat.toDigits 10 n).length = 1 := by rw [hdig]; rfl
    unfold Nat.toDigits at hlen
    have hdiv : ¬(n / 10 = 0) := by omega
    simp only [Nat.toDigitsCore, hdiv, if_false] at hlen
    have := toDigitsCore_length_gt 10 n (n / 10) [Nat.digitChar (n % 10)] (by omega)
    simp only [List.length_cons, List.length_nil] at this
    omega

theorem section_link_ne_zero (m : Nat) : "#section" ++ Nat.repr (m + 1) ≠ "#section0" := by
  intro h
  have hdata : "#section".data ++ (Nat.repr (m + 1)).data = "#section".data ++ "0".data := by
    have := congrArg String.data h
    simpa [String.data_append] using this
  have : (Nat.repr (m + 1)).data = "0".data := List.append_cancel_left hdata
  exact nat_repr_ne_zero (Nat.succ_ne_zero m) (String.ext this)

theorem renderLine_link (sections : List String) (format line : String) :
    (renderLine sections format line).link = none := by
  unfold renderLine
  split
  · rfl
  · split <;> rfl

theorem tocOps_filter (sections : List String) (format : String) :
    (tocOps sections format).filter (fun op => op.link.isSome) =
      if format = "presentation" then []
      else sections.enum.map (fun p =>
        { fontSize := 12, content := p.2, link := some ("#section" ++ Nat.repr (p.1 + 1)),
          destination := none }) := by
  by_cases hp : format = "presentation"
  · simp [tocOps, hp]
  · rw [if_neg hp]
    unfold tocOps
    rw [if_pos (by simp [bne_iff_ne, hp])]
    rw [List.filter_cons]
    have hhd : (({ fontSize := 18, content := "Table of Contents" } : TextOp).link.isSome) =
        false := rfl
    rw [hhd]
    simp only [Bool.false_eq_true, if_false]
    rw [List.filter_eq_self]
    intro a ha
    rcases List.mem_map.mp ha with ⟨p, _, rfl⟩
    rfl

theorem generateOps_filter (text : String) (sections : List String) (format : String) :
    (generateOps text sections format).filter (fun op => op.link.isSome) =
      if format = "presentation" then []
      else sections.enum.map (fun p =>
        { fontSize := 12, content := p.2, link := some ("#section" ++ Nat.repr (p.1 + 1)),
          destination := none }) := by
  unfold generateOps
  rw [List.filter_cons]
  have h1 : ((titleOp).link.isSome) = false := rfl
  rw [h1]
  simp only [Bool.false_eq_true, if_false]
  rw [List.filter_append]
  have h2 : ((text.splitOn "\n").map (renderLine sections format)).filter
      (fun op => op.link.isSome) = [] := by
    rw [List.filter_eq_nil_iff]
    intro a ha
    rcases List.mem_map.mp ha with ⟨l, _, rfl⟩
    simp [renderLine_link]
  rw [h2, tocOps_filter, List.append_nil]

theorem enum_map_getElem? (sections : List String) (f : Nat × String → TextOp) (i : Nat) :
    (sections.enum.map f)[i]? = sections[i]?.map (fun a => f (i, a)) := by
  rw [List.getElem?_map, List.enum_eq_enumFrom, List.getElem?_enumFrom]
  cases sections[i]? <;> simp

/-! ## The claims -/

/-- Claim C4 (confirmed): for `format = detailed` the document produced
by the layout engine has at least 15 pages for every input text
(including empty text) and every content-pass page count — the padding
loop brings the count to exactly `max contentPages 15`, appending blank
pages until 15 is reached. -/
theorem C4_thm (text : String) (sections : List String) (contentPages : Nat) :
    15 ≤ (generatePDFModel text sections "detailed" contentPages).pages ∧
    (generatePDFModel text sections "detailed" contentPages).pages = max contentPages 15 := by
  have h : (generatePDFModel text sections "detailed" contentPages).pages =
      padTo15 contentPages := rfl
  rw [h, padTo15_eq]
  omega

/-- Claim C5 (confirmed): after the footer pass there is one footer per
page of the final count `N`, and the footer of page `i` reads exactly
`Page {i+1} of {N}` with `N` the page count fixed after padding — no
footer mentions a pre-padding count. -/
theorem C5_thm (text : String) (sections : List String) (format : String)
    (contentPages : Nat) (i : Nat)
    (hi : i < (generatePDFModel text sections format contentPages).pages) :
    (generatePDFModel text sections format contentPages).footers.length =
      (generatePDFModel text sections format contentPages).pages ∧
    (generatePDFModel text sections format contentPages).footers[i]? =
      some ("Page " ++ Nat.repr (i + 1) ++ " of " ++
        Nat.repr (generatePDFModel text sections format contentPages).pages) := by
  have hf : (generatePDFModel text sections format contentPages).footers =
      (List.range (generatePDFModel text sections format contentPages).pages).map
        (fun j => pageFooter j (generatePDFModel text sections format contentPages).pages) :=
    rfl
  constructor
  · rw [hf, List.length_map, List.length_range]
  · rw [hf, List.getElem?_map, List.getElem?_range hi]
    rfl

/-- Witness for C5 at a concrete input (summary format, 3 content
pages, page index 1). -/
theorem C5_witness :
    (generatePDFModel "body text" ["Overview"] "summary" 3).footers.length =
      (generatePDFModel "body text" ["Overview"] "summary" 3).pages ∧
    (generatePDFModel "body text" ["Overview"] "summary" 3).footers[1]? =
      some ("Page " ++ Nat.repr 2 ++ " of " ++
        Nat.repr (generatePDFModel "body text" ["Overview"] "summary" 3).pages) :=
  C5_thm "body text" ["Overview"] "summary" 3 1 (by decide)

/-- Claim C6 (confirmed): for every format other than `presentation`
the rendered table of contents (the ops carrying a link) has exactly one
entry per requested section, in requested order, entry `i` linking to
`#section{i+1}`; for `presentation` no op carries a link at all. -/
theorem C6_thm (text : String) (sections : List String) (format : String)
    (contentPages : Nat) :
    (format ≠ "presentation" →
      ((generatePDFModel text sections format contentPages).ops.filter
          (fun op => op.link.isSome)).length = sections.length ∧
      ∀ i : Nat,
        ((generatePDFModel text sections format contentPages).ops.filter
            (fun op => op.link.isSome))[i]? =
          sections[i]?.map (fun sec =>
            { fontSize := 12, content := sec,
              link := some ("#section" ++ Nat.repr (i + 1)), destination := none })) ∧
    (format = "presentation" →
      (generatePDFModel text sections format contentPages).ops.filter
        (fun op => op.link.isSome) = []) := by
  have hops : (generatePDFModel text sections format contentPages).ops =
      generateOps text sections format := rfl
  rw [hops, generateOps_filter]
  constructor
  · intro h
    rw [if_neg h]
    constructor
    · simp [List.enum_eq_enumFrom]
    · intro i
      exact enum_map_getElem? sections _ i
  · intro h
    rw [if_pos h]

/-- Witness for C6 at a concrete input (summary format, two requested
sections). -/
theorem C6_witness :
    ((generatePDFModel "x" ["Market Overview", "Pricing"] "summary" 1).ops.filter
        (fun op => op.link.isSome)).length = 2 ∧
    ((generatePDFModel "x" ["Market Overview", "Pricing"] "summary" 1).ops.filter
        (fun op => op.link.isSome))[0]? =
      some { fontSize := 12, content := "Market Overview",
             link := some ("#section" ++ Nat.repr 1), destination := none } := by
  have h := (C6_thm "x" ["Market Overview", "Pricing"] "summary" 1).1 (by decide)
  exact ⟨h.1, (h.2 0).trans (by decide)⟩

/-- Claim C7 (confirmed): a truthy cache hit on key
`competitor:<identifier>` short-circuits the adapter — zero
`scrapeWebsite` calls, no cache write — and the cached string is decoded
and used as the record. -/
theorem C7_thm (cache : String → Option String) (decode : String → ScrapedData)
    (encode : ScrapedData → String) (scrape : String → ScrapedData) (competitor s : String)
    (hhit : cache ("competitor:" ++ competitor) = some s) (hne : s ≠ "") :
    resolveCompetitor cache decode encode scrape competitor =
      { record := decode s, cachedMsgs := [usingCachedMsg competitor],
        scrapeCalls := 0, cacheWrites := [] } := by
  simp only [resolveCompetitor]
  rw [hhit]
  simp [hne]

/-- Witness for C7 at a concrete cache snapshot containing the key
`competitor:acme`. -/
theorem C7_witness :
    resolveCompetitor
        (fun k => if k == "competitor:acme" then some "cached-json" else none)
        (fun _ => emptyScrapedData) (fun _ => "") (fun _ => emptyScrapedData) "acme" =
      { record := emptyScrapedData, cachedMsgs := [usingCachedMsg "acme"],
        scrapeCalls := 0, cacheWrites := [] } :=
  C7_thm _ _ _ _ "acme" "cached-json" (by decide) (by decide)

/-- Claim C1 (counterexample): with requested sections
`["Market Overview"]`, the line `Market` is a substring of a requested
section identifier, so the claimed symmetric rule classifies it as a
header line — but the code (line 165, `line.includes(section)` only)
renders it as a plain 12-point body line with no anchor. -/
theorem C1_counterexample :
    specHeaderCheck ["Market Overview"] "Market" = true ∧
    isHeaderLine ["Market Overview"] "Market" = false ∧
    renderLine ["Market Overview"] "summary" "Market" =
      { fontSize := 12, content := "Market", link := none, destination := none } := by
  decide

/-- Claim C1 (amended): a narrative line is classified as a header line
iff some requested section identifier is a substring of the line (one
direction only); the anchor target is `section{i+1}` where `i` is the
earliest index whose identifier contains the *line* as a substring — the
reversed containment of line 168 — and `section0` when no identifier
contains the line. -/
theorem C1_thm (sections : List String) (format line : String) :
    ((renderLine sections format line).destination.isSome = true ↔
      ∃ sec, sec ∈ sections ∧ strIncludes line sec = true) ∧
    ((renderLine sections format line).destination =
      if isHeaderLine sections line then
        some ("section" ++
          Nat.repr (match sections.findIdx? (fun s => strIncludes s line) with
            | some i => i + 1
            | none => 0))
      else none) ∧
    (∀ i : Nat, sections.findIdx? (fun s => strIncludes s line) = some i →
      strIncludes (sections.getD i "") line = true ∧
      ∀ j, j < i → strIncludes (sections.getD j "") line = false) := by
  have hdest : (renderLine sections format line).destination =
      if isHeaderLine sections line then some (headerDestination sections line) else none := by
    unfold renderLine
    by_cases hh : isHeaderLine sections line
    · rw [if_pos hh, if_pos hh]
    · rw [if_neg hh, if_neg hh]
      split <;> rfl
  have hrepr : headerDestination sections line =
      "section" ++ Nat.repr (match sections.findIdx? (fun s => strIncludes s line) with
        | some i => i + 1
        | none => 0) := by
    unfold headerDestination jsFindIndex
    cases hfi : sections.findIdx? (fun s => strIncludes s line) with
    | some i => rfl
    | none => rfl
  refine ⟨?_, ?_, ?_⟩
  · rw [hdest]
    by_cases hh : isHeaderLine sections line
    · rw [if_pos hh]
      constructor
      · intro _
        simpa using List.any_eq_true.mp hh
      · intro _
        rfl
    · rw [if_neg hh]
      constructor
      · intro h0
        simp at h0
      · intro hex
        exact absurd (List.any_eq_true.mpr (by simpa using hex)) hh
  · rw [hdest]
    by_cases hh : isHeaderLine sections line
    · rw [if_pos hh, if_pos hh, hrepr]
    · rw [if_neg hh, if_neg hh]
  · intro i hfi
    rcases List.findIdx?_eq_some_iff_getElem.mp hfi with ⟨hlt, hp, hprev⟩
    constructor
    · rw [List.getD_eq_getElem?_getD, List.getElem?_eq_getElem hlt]
      exact hp
    · intro j hj
      have hjlt : j < sections.length := Nat.lt_trans hj hlt
      rw [List.getD_eq_getElem?_getD, List.getElem?_eq_getElem hjlt]
      have := hprev j hj
      simpa using this

/-- Witness for C1 at a concrete input: `Market` is not a header line
for sections `["Pricing", "Market Overview"]`, and the reversed
`findIndex` lookup selects index 1 (the earliest identifier containing
the line). -/
theorem C1_witness :
    (renderLine ["Pricing", "Market Overview"] "summary" "Market").destination = none ∧
    strIncludes (["Pricing", "Market Overview"].getD 1 "") "Market" = true ∧
    (∀ j, j < 1 → strIncludes (["Pricing", "Market Overview"].getD j "") "Market" = false) := by
  have h := C1_thm ["Pricing", "Market Overview"] "summary" "Market"
  refine ⟨?_, (h.2.2 1 (by decide)).1, (h.2.2 1 (by decide)).2⟩
  rw [h.2.1]
  decide

/-- Claim C10 (confirmed): a line containing a requested section
identifier but not itself contained in any requested identifier is
rendered as a header with anchor destination `section0`, while every
table-of-contents link targets `#section{i+1}` with `i+1 ≥ 1` — so no
table-of-contents entry links to such a header. -/
theorem C10_thm (sections : List String) (format line text : String)
    (h1 : isHeaderLine sections line = true)
    (h2 : ∀ sec ∈ sections, strIncludes sec line = false) :
    (renderLine sections format line).destination = some "section0" ∧
    ∀ op ∈ generateOps text sections format, op.link ≠ some "#section0" := by
  constructor
  · have hfi : sections.findIdx? (fun s => strIncludes s line) = none :=
      List.findIdx?_eq_none_iff.mpr h2
    have hd : (renderLine sections format line).destination =
        some (headerDestination sections line) := by
      unfold renderLine
      rw [if_pos h1]
    rw [hd]
    unfold headerDestination jsFindIndex
    rw [hfi]
    decide
  · intro op hop
    rcases List.mem_cons.mp hop with rfl | hop2
    · intro hlink
      exact Option.noConfusion hlink
    rcases List.mem_append.mp hop2 with htoc | hcontent
    · unfold tocOps at htoc
      by_cases hp : (format != "presentation") = true
      · rw [if_pos hp] at htoc
        rcases List.mem_cons.mp htoc with rfl | hent
        · intro hlink
          exact Option.noConfusion hlink
        · rcases List.mem_map.mp hent with ⟨p, _, rfl⟩
          intro hlink
          have : "#section" ++ Nat.repr (p.1 + 1) = "#section0" :=
            Option.some.inj hlink
          exact section_link_ne_zero p.1 this
      · rw [if_neg hp] at htoc
        exact absurd htoc (List.not_mem_nil op)
    · rcases List.mem_map.mp hcontent with ⟨l, _, rfl⟩
      rw [renderLine_link]
      intro hlink
      exact Option.noConfusion hlink

/-- Witness for C10: the line `Market Overview news` contains the
requested identifier `Market` but is contained in no identifier; its
anchor is `section0` and the sole table-of-contents entry links to
`#section1`. -/
theorem C10_witness :
    (renderLine ["Market"] "summary" "Market Overview news").destination = some "section0" ∧
    ∀ op ∈ generateOps "Market Overview news" ["Market"] "summary",
      op.link ≠ some "#section0" :=
  C10_thm ["Market"] "summary" "Market Overview news" "Market Overview news"
    (by decide) (by decide)

/-- Claim C2 (counterexample): for the valid request with one competitor
(`N = 1`), empty cache, the handler pushes 5 progress events — start,
one per-competitor, analysis, document, completion — not `N + 3 = 4`. -/
theorem C2_counterexample :
    (handlerRun (fun _ => none) (fun _ => emptyScrapedData) (fun _ => "")
        (fun _ => emptyScrapedData) "POST"
        { competitors := ["acme"], reportSections := ["Market Overview"],
          reportFormat := "summary" }).events.length = 5 ∧
    ¬((handlerRun (fun _ => none) (fun _ => emptyScrapedData) (fun _ => "")
        (fun _ => emptyScrapedData) "POST"
        { competitors := ["acme"], reportSections := ["Market Overview"],
          reportFormat := "summary" }).events.length = 1 + 3) := by
  decide

/-- Claim C2 (amended): every admissible progress trace of a `POST`
request has exactly `N + 4 + H` events, where `N` is the competitor
count and `H` the number of cache hits; when there are no cache hits the
trace is exactly the fixed stage order — start, the `N` per-competitor
events in list order, analysis, document, completion. -/
theorem C2_thm (cache : String → Option String) (decode : String → ScrapedData)
    (encode : ScrapedData → String) (scrape : String → ScrapedData) (body : ReportRequest)
    (t : List String) (h : HandlerTrace cache decode encode scrape body t) :
    t.length = body.competitors.length + 4 + (hitCompetitors cache body.competitors).length ∧
    (hitCompetitors cache body.competitors = [] →
      t = startingMsg :: (analyzingMsgs body.competitors ++
        [generatingMsg, creatingMsg, completeMsg])) := by
  refine ⟨handlerTrace_length cache decode encode scrape body t h, ?_⟩
  intro hnil
  rcases h with ⟨f, ⟨σ, hperm, rfl⟩, rfl⟩
  have hu : usingCachedMsgs cache decode encode scrape body.competitors = [] := by
    rw [usingCachedMsgs_eq_map, hnil]
    rfl
  rw [hu] at hperm
  have hσ : σ = [] := List.perm_nil.mp hperm
  subst hσ
  simp

/-- Witness for C2 (amended) at a concrete input: one competitor, empty
cache, canonical trace of length `1 + 4 + 0 = 5`. -/
theorem C2_witness :
    (handlerMsgs (fun _ => none) (fun _ => emptyScrapedData) (fun _ => "")
        (fun _ => emptyScrapedData)
        { competitors := ["acme"], reportSections := ["Market Overview"],
          reportFormat := "summary" }).length = 5 := by
  have h := C2_thm (fun _ => none) (fun _ => emptyScrapedData) (fun _ => "")
      (fun _ => emptyScrapedData)
      { competitors := ["acme"], reportSections := ["Market Overview"],
        reportFormat := "summary" }
      (handlerMsgs (fun _ => none) (fun _ => emptyScrapedData) (fun _ => "")
        (fun _ => emptyScrapedData)
        { competitors := ["acme"], reportSections := ["Market Overview"],
          reportFormat := "summary" })
      ⟨_, ⟨_, List.Perm.refl _, rfl⟩, rfl⟩
  rw [h.1]
  decide

/-- Claim C3 (counterexample): the `POST` request with an empty
competitor list and the unrecognized format `xml` is not rejected — the
handler answers 200, opens the event stream and pushes 4 progress
events, contradicting the claimed 4xx rejection with zero events. -/
theorem C3_counterexample :
    (handlerRun (fun _ => none) (fun _ => emptyScrapedData) (fun _ => "")
        (fun _ => emptyScrapedData) "POST"
        { competitors := [], reportSections := [], reportFormat := "xml" }).status = 200 ∧
    (handlerRun (fun _ => none) (fun _ => emptyScrapedData) (fun _ => "")
        (fun _ => emptyScrapedData) "POST"
        { competitors := [], reportSections := [], reportFormat := "xml" }).sseOpened = true ∧
    (handlerRun (fun _ => none) (fun _ => emptyScrapedData) (fun _ => "")
        (fun _ => emptyScrapedData) "POST"
        { competitors := [], reportSections := [], reportFormat := "xml" }).events.length = 4 ∧
    ¬(400 ≤ (handlerRun (fun _ => none) (fun _ => emptyScrapedData) (fun _ => "")
          (fun _ => emptyScrapedData) "POST"
          { competitors := [], reportSections := [], reportFormat := "xml" }).status ∧
      (handlerRun (fun _ => none) (fun _ => emptyScrapedData) (fun _ => "")
          (fun _ => emptyScrapedData) "POST"
          { competitors := [], reportSections := [], reportFormat := "xml" }).status < 500 ∧
      (handlerRun (fun _ => none) (fun _ => emptyScrapedData) (fun _ => "")
          (fun _ => emptyScrapedData) "POST"
          { competitors := [], reportSections := [], reportFormat := "xml" }).events = []) := by
  decide

/-- Claim C3 (amended): the handler performs no body validation — every
`POST` request, including one with an empty competitor list or an
unrecognized format, is answered 200 with the event stream opened and
the start event pushed first; the only request-level rejection is the
405 (with no events) for non-`POST` methods. -/
theorem C3_thm (cache : String → Option String) (decode : String → ScrapedData)
    (encode : ScrapedData → String) (scrape : String → ScrapedData) (method : String)
    (body : ReportRequest) (hm : method ≠ "POST") :
    (handlerRun cache decode encode scrape "POST" body).status = 200 ∧
    (handlerRun cache decode encode scrape "POST" body).sseOpened = true ∧
    (handlerRun cache decode encode scrape "POST" body).events.head? = some startingMsg ∧
    handlerRun cache decode encode scrape method body =
      { status := 405, sseOpened := false, events := [] } := by
  refine ⟨rfl, rfl, rfl, ?_⟩
  unfold handlerRun
  rw [if_neg (by simpa using hm)]

/-- Witness for C3 (amended) at the concrete method `GET`. -/
theorem C3_witness :
    handlerRun (fun _ => none) (fun _ => emptyScrapedData) (fun _ => "")
        (fun _ => emptyScrapedData) "GET"
        { competitors := ["acme"], reportSections := ["Pricing"],
          reportFormat := "summary" } =
      { status := 405, sseOpened := false, events := [] } :=
  (C3_thm (fun _ => none) (fun _ => emptyScrapedData) (fun _ => "")
    (fun _ => emptyScrapedData) "GET"
    { competitors := ["acme"], reportSections := ["Pricing"], reportFormat := "summary" }
    (by decide)).2.2.2

/-- Claim C8 (confirmed): in every admissible execution trace the
per-competitor `Analyzing competitor i of N` events appear exactly once
each, in competitor list order (`i = 1..N`), independent of the
completion order of the concurrent resolutions — they are pushed in the
synchronous dispatch phase of the fan-out. -/
theorem C8_thm (cache : String → Option String) (decode : String → ScrapedData)
    (encode : ScrapedData → String) (scrape : String → ScrapedData) (body : ReportRequest)
    (t : List String) (h : HandlerTrace cache decode encode scrape body t) :
    t.filter isAnalyzingMsg = analyzingMsgs body.competitors ∧
    t.filter isAnalyzingMsg = (List.range body.competitors.length).map
      (fun i => analyzingMsg (i + 1) body.competitors.length) := by
  have h1 := filter_analyzing_of_trace cache decode encode scrape body t h
  exact ⟨h1, h1.trans (analyzingMsgs_eq_range_map body.competitors)⟩

/-- Witness for C8 at a concrete two-competitor request with empty
cache, on the canonical trace. -/
theorem C8_witness :
    (handlerMsgs (fun _ => none) (fun _ => emptyScrapedData) (fun _ => "")
        (fun _ => emptyScrapedData)
        { competitors := ["acme", "globex"], reportSections := ["Pricing"],
          reportFormat := "summary" }).filter isAnalyzingMsg =
      analyzingMsgs ["acme", "globex"] :=
  (C8_thm (fun _ => none) (fun _ => emptyScrapedData) (fun _ => "")
    (fun _ => emptyScrapedData)
    { competitors := ["acme", "globex"], reportSections := ["Pricing"],
      reportFormat := "summary" } _ ⟨_, ⟨_, List.Perm.refl _, rfl⟩, rfl⟩).1

/-- Claim C9 (confirmed): each competitor resolved from the cache
contributes one extra `Using cached data for <competitor>...` event, so
every admissible trace has exactly `N + 4 + H` events, `H` being the
number of cache hits — the event count depends on cache state. -/
theorem C9_thm (cache : String → Option String) (decode : String → ScrapedData)
    (encode : ScrapedData → String) (scrape : String → ScrapedData) (body : ReportRequest)
    (t : List String) (h : HandlerTrace cache decode encode scrape body t) :
    t.length = body.competitors.length + 4 + (hitCompetitors cache body.competitors).length ∧
    (t.filter isUsingCachedMsg).Perm
      ((hitCompetitors cache body.competitors).map usingCachedMsg) := by
  refine ⟨handlerTrace_length cache decode encode scrape body t h, ?_⟩
  rcases h with ⟨f, ⟨σ, hperm, rfl⟩, rfl⟩
  have hstart : isUsingCachedMsg startingMsg = false := isUsingCachedMsg_constants.1
  have htail : [generatingMsg, creatingMsg, completeMsg].filter isUsingCachedMsg = [] := by
    decide
  have hana : (analyzingMsgs body.competitors).filter isUsingCachedMsg = [] := by
    rw [List.filter_eq_nil_iff]
    intro a ha
    rcases mem_analyzingMsgs _ _ ha with ⟨i, rfl⟩
    simp [isUsingCachedMsg_analyzingMsg]
  have hσ : σ.filter isUsingCachedMsg = σ := by
    rw [List.filter_eq_self]
    intro a ha
    rcases mem_usingCachedMsgs cache decode encode scrape body.competitors a
        (hperm.mem_iff.mp ha) with ⟨c, rfl⟩
    exact isUsingCachedMsg_usingCachedMsg c
  have hfilter : (startingMsg :: ((analyzingMsgs body.competitors ++ σ) ++
      [generatingMsg, creatingMsg, completeMsg])).filter isUsingCachedMsg = σ := by
    rw [List.filter_cons, List.filter_append, List.filter_append, hstart, hana, hσ, htail]
    simp
  rw [hfilter, ← usingCachedMsgs_eq_map cache decode encode scrape body.competitors]
  exact hperm

/-- Witness for C9 at a concrete request with one cache hit out of two
competitors: the canonical trace has `2 + 4 + 1 = 7` events. -/
theorem C9_witness :
    (handlerMsgs (fun k => if k == "competitor:acme" then some "cached" else none)
        (fun _ => emptyScrapedData) (fun _ => "") (fun _ => emptyScrapedData)
        { competitors := ["acme", "globex"], reportSections := ["Pricing"],
          reportFormat := "summary" }).length = 7 := by
  have h := C9_thm (fun k => if k == "competitor:acme" then some "cached" else none)
      (fun _ => emptyScrapedData) (fun _ => "") (fun _ => emptyScrapedData)
      { competitors := ["acme", "globex"], reportSections := ["Pricing"],
        reportFormat := "summary" }
      (handlerMsgs (fun k => if k == "competitor:acme" then some "cached" else none)
        (fun _ => emptyScrapedData) (fun _ => "") (fun _ => emptyScrapedData)
        { competitors := ["acme", "globex"], reportSections := ["Pricing"],
          reportFormat := "summary" })
      ⟨_, ⟨_, List.Perm.refl _, rfl⟩, rfl⟩
  rw [h.1]
  decide
